import Mathlib

/-!
Verification of the yunikorn-k8shim scheduling core: a shallow embedding of
the Application state machine, the scheduling Context (AssumePod / ForgetPod,
application and task registry), the node update path, and the Spark
completion handler, together with theorems settling the specified
properties against the embedded code.
-/

namespace YuniKorn

/-- Application states, the values of events.States().Application used by
NewApplication in pkg/cache/application.go. -/
inductive AppState
  | New | Submitted | Accepted | Running | Completed
  | Recovering | Rejected | Failed | Killing | Killed
  deriving DecidableEq, Repr

/-- Application event verbs (events.ApplicationEventType). -/
inductive AppEventType
  | SubmitApplication | RecoverApplication | AcceptApplication | RunApplication
  | CompleteApplication | RejectApplication | FailApplication
  | KillApplication | KilledApplication
  deriving DecidableEq, Repr

instance : Fintype AppState where
  elems := ⟨[AppState.New, AppState.Submitted, AppState.Accepted, AppState.Running,
    AppState.Completed, AppState.Recovering, AppState.Rejected, AppState.Failed,
    AppState.Killing, AppState.Killed], by decide⟩
  complete := fun x => by cases x <;> decide

instance : Fintype AppEventType where
  elems := ⟨[AppEventType.SubmitApplication, AppEventType.RecoverApplication,
    AppEventType.AcceptApplication, AppEventType.RunApplication,
    AppEventType.CompleteApplication, AppEventType.RejectApplication,
    AppEventType.FailApplication, AppEventType.KillApplication,
    AppEventType.KilledApplication], by decide⟩
  complete := fun x => by cases x <;> decide

/-- Source states of each FSM event, exactly the fsm.Events table built in
NewApplication (pkg/cache/application.go lines 72-102). -/
def appSrc : AppEventType → List AppState
  | .SubmitApplication => [.New]
  | .RecoverApplication => [.New]
  | .AcceptApplication => [.Submitted, .Recovering]
  | .RunApplication => [.Accepted, .Running]
  | .CompleteApplication => [.Running]
  | .RejectApplication => [.Submitted]
  | .FailApplication => [.Submitted, .Rejected, .Accepted, .Running]
  | .KillApplication => [.Accepted, .Running]
  | .KilledApplication => [.Killing]

/-- Destination state of each FSM event, from the same fsm.Events table. -/
def appDst : AppEventType → AppState
  | .SubmitApplication => .Submitted
  | .RecoverApplication => .Recovering
  | .AcceptApplication => .Accepted
  | .RunApplication => .Running
  | .CompleteApplication => .Completed
  | .RejectApplication => .Rejected
  | .FailApplication => .Failed
  | .KillApplication => .Killing
  | .KilledApplication => .Killed

/-- Observable side effects of the application FSM callbacks:
a dispatcher.Dispatch of a further application event, or a scheduler-core
Update RPC carrying a NewApplications entry. -/
inductive AppEffect
  | dispatchApp (ev : AppEventType)
  | coreUpdateNewApp
  deriving DecidableEq, Repr

/-- The callbacks registered in NewApplication (fsm.Callbacks), as effect
lists. `rpcErr` models the outcome of the schedulerAPI.Update call made by
handleSubmitApplicationEvent / handleRecoverApplicationEvent: when the RPC
fails, the callback dispatches FailApplication.
handleRejectApplicationEvent dispatches FailApplication and makes no RPC;
handleCompleteApplicationEvent has an empty (commented-out) body. -/
def appCallback (rpcErr : Bool) : AppEventType → List AppEffect
  | .SubmitApplication =>
      .coreUpdateNewApp :: (if rpcErr then [.dispatchApp .FailApplication] else [])
  | .RecoverApplication =>
      .coreUpdateNewApp :: (if rpcErr then [.dispatchApp .FailApplication] else [])
  | .RejectApplication => [.dispatchApp .FailApplication]
  | _ => []

/-- Errors the looplab fsm returns from Event(): NoTransitionError when the
destination equals the current state, InvalidEventError when the event is not
allowed from the current state. -/
inductive FsmErr
  | noTransition
  | invalidEvent
  deriving DecidableEq, Repr

instance : Fintype FsmErr where
  elems := ⟨[FsmErr.noTransition, FsmErr.invalidEvent], by decide⟩
  complete := fun x => by cases x <;> decide

/-- The error string, compared by Application.handle against "no transition". -/
def FsmErr.message : FsmErr → String
  | .noTransition => "no transition"
  | .invalidEvent => "event inappropriate in current state"

/-- Result of firing one event on the fsm: the state after the call, the
callback effects that ran, and the error returned by fsm.Event. -/
structure FireResult where
  state : AppState
  effects : List AppEffect
  err : Option FsmErr
  deriving DecidableEq, Repr

instance {e a : Type} [DecidableEq e] [DecidableEq a] : DecidableEq (Except e a) :=
  fun x y =>
    match x, y with
    | .error u, .error v =>
        decidable_of_iff (u = v) ⟨fun h => by rw [h], fun h => by injection h⟩
    | .ok u, .ok v =>
        decidable_of_iff (u = v) ⟨fun h => by rw [h], fun h => by injection h⟩
    | .error _, .ok _ => Decidable.isFalse (fun h => Except.noConfusion h)
    | .ok _, .error _ => Decidable.isFalse (fun h => Except.noConfusion h)

/-- fsm.Can: the event is allowed from the current state.
Application.canHandle delegates to this. -/
def smCan (s : AppState) (ev : AppEventType) : Bool :=
  (appSrc ev).contains s

/-- fsm.Event semantics for this FSM: invalid events leave the state and run
no callback; a same-state transition runs the after-event callback and
reports NoTransitionError; otherwise the state moves to the destination and
the after-event callback runs. -/
def smEvent (rpcErr : Bool) (s : AppState) (ev : AppEventType) : FireResult :=
  if smCan s ev then
    if appDst ev = s then ⟨s, appCallback rpcErr ev, some .noTransition⟩
    else ⟨appDst ev, appCallback rpcErr ev, none⟩
  else ⟨s, [], some .invalidEvent⟩

/-- Application.handle (pkg/cache/application.go lines 114-139): fires the
fsm event and treats a returned error whose message is "no transition" as
success; any other error is returned to the caller. -/
def appHandle (rpcErr : Bool) (s : AppState) (ev : AppEventType) :
    Except FsmErr (AppState × List AppEffect) :=
  let r := smEvent rpcErr s ev
  match r.err with
  | none => .ok (r.state, r.effects)
  | some e =>
      if e.message = "no transition" then .ok (r.state, r.effects)
      else .error e

/-- The transition table as written in the specification (section 4.3),
kept separate from the table embedded from the source so the two can be
compared: the From set of each verb. -/
def specFrom : AppEventType → List AppState
  | .SubmitApplication => [.New]
  | .RecoverApplication => [.New]
  | .AcceptApplication => [.Submitted, .Recovering]
  | .RunApplication => [.Accepted, .Running]
  | .CompleteApplication => [.Running]
  | .RejectApplication => [.Submitted]
  | .FailApplication => [.Submitted, .Rejected, .Accepted, .Running]
  | .KillApplication => [.Accepted, .Running]
  | .KilledApplication => [.Killing]

/-- The To state of each verb as written in the specification's table. -/
def specTo : AppEventType → AppState
  | .SubmitApplication => .Submitted
  | .RecoverApplication => .Recovering
  | .AcceptApplication => .Accepted
  | .RunApplication => .Running
  | .CompleteApplication => .Completed
  | .RejectApplication => .Rejected
  | .FailApplication => .Failed
  | .KillApplication => .Killing
  | .KilledApplication => .Killed

/-- A pod as the scheduler cache sees it: the UID used as the pod key, the
node name that AssumePod stamps, and the pod labels. -/
structure Pod where
  uid : String
  nodeName : String
  labels : List (String × String)
  deriving DecidableEq, Repr

/-- First-match lookup in a string-keyed association list. -/
def alookup {α : Type} (xs : List (String × α)) (k : String) : Option α :=
  match xs with
  | [] => none
  | p :: rest => if p.1 = k then some p.2 else alookup rest k

/-- Remove every entry with the given key from an association list. -/
def aerase {α : Type} (k : String) (xs : List (String × α)) : List (String × α) :=
  match xs with
  | [] => []
  | p :: rest => if p.1 = k then aerase k rest else p :: aerase k rest

/-- Modelled from the spec: the external scheduler cache
(pkg/cache/external/scheduler_cache.go, which is not under src/). It
mirrors orchestrator pods and nodes; AssumePod records the assumed pod
together with an allBound flag; ForgetPod removes the assumed record. -/
structure SchedulerCache where
  pods : List (String × Pod)
  nodes : List String
  assumedPods : List (String × (Pod × Bool))
  deriving DecidableEq, Repr

/-- SchedulerCache.GetPod: look the pod up by its key. -/
def cacheGetPod (c : SchedulerCache) (name : String) : Option Pod :=
  alookup c.pods name

/-- SchedulerCache.GetNode returns a non-nil node exactly when the node
name is known to the cache. -/
def cacheHasNode (c : SchedulerCache) (node : String) : Bool :=
  c.nodes.contains node

/-- Modelled from the spec: SchedulerCache.AssumePod records the assumed
pod in the cache with the allBound flag. -/
def cacheAssumePod (c : SchedulerCache) (p : Pod) (allBound : Bool) : SchedulerCache :=
  { c with assumedPods := (p.uid, (p, allBound)) :: c.assumedPods }

/-- Modelled from the spec: SchedulerCache.ForgetPod removes the assumed
pod record from the cache. -/
def cacheForgetPod (c : SchedulerCache) (p : Pod) : SchedulerCache :=
  { c with assumedPods := aerase p.uid c.assumedPods }

/-- The outcome of VolumeBinder.Binder.AssumePodVolumes, supplied as an
oracle: none models a nil VolumeBinder (as in tests); some (.error e) a
binder error; some (.ok b) success reporting allBound = b. -/
abbrev BinderOutcome := Option (Except String Bool)

/-- Context.AssumePod (pkg/cache/context.go lines 326-353), clause by
clause: look up the pod, then the node; with a volume binder present run
AssumePodVolumes and return its error without touching the cache; stamp the
node name on a copy of the pod and record the copy as assumed; when the pod
or the node is missing, fall through and return success with no mutation. -/
def ctxAssumePod (binder : BinderOutcome) (c : SchedulerCache)
    (name node : String) : Except String SchedulerCache :=
  match cacheGetPod c name with
  | some pod =>
      if cacheHasNode c node then
        match binder with
        | some (.error e) => .error e
        | some (.ok b) => .ok (cacheAssumePod c { pod with nodeName := node } b)
        | none => .ok (cacheAssumePod c { pod with nodeName := node } true)
      else .ok c
  | none => .ok c

/-- Context.ForgetPod (pkg/cache/context.go lines 357-368): forget the pod
when it is found in the cache; a missing pod is only logged and success is
returned. -/
def ctxForgetPod (c : SchedulerCache) (name : String) : Except String SchedulerCache :=
  match cacheGetPod c name with
  | some pod => .ok (cacheForgetPod c pod)
  | none => .ok c

/-- A task held in an application's task map. -/
structure Task where
  taskID : String
  podUID : String
  allocatedNode : Option String
  deriving DecidableEq, Repr

/-- An application as held in the Context registry. -/
structure App where
  applicationID : String
  queue : String
  user : String
  tags : List (String × String)
  state : AppState
  taskMap : List (String × Task)
  chRunning : Bool
  deriving DecidableEq, Repr

/-- NewApplication (pkg/cache/application.go lines 57-112): a fresh app in
the FSM initial state New, an empty task map, and a completion handler
whose running flag is false. -/
def newApplication (appID queueName user : String) (tags : List (String × String)) : App :=
  ⟨appID, queueName, user, tags, .New, [], false⟩

structure AddApplicationRequest where
  applicationID : String
  queueName : String
  user : String
  tags : List (String × String)
  recovery : Bool
  deriving DecidableEq, Repr

/-- Context.AddApplication (pkg/cache/context.go lines 388-414):
unconditionally builds a fresh application and stores it under its ID; in
recovery mode, when the fresh app is in state New, a RecoverApplication
event is dispatched. Returns the new registry, the app, and the dispatched
events. -/
def ctxAddApplication (apps : List (String × App)) (req : AddApplicationRequest) :
    List (String × App) × App × List AppEffect :=
  let app := newApplication req.applicationID req.queueName req.user req.tags
  let apps1 := (app.applicationID, app) :: apps
  let effs := if req.recovery ∧ app.state = AppState.New
    then [AppEffect.dispatchApp .RecoverApplication] else []
  (apps1, app, effs)

/-- Application.AddTask (pkg/cache/application.go lines 169-177): skip a
duplicate taskID, otherwise insert into the task map. -/
def appAddTask (app : App) (t : Task) : App :=
  match alookup app.taskMap t.taskID with
  | some _ => app
  | none => { app with taskMap := (t.taskID, t) :: app.taskMap }

structure AddTaskRequest where
  applicationID : String
  taskID : String
  podUID : String
  podNodeName : String
  recovery : Bool
  deriving DecidableEq, Repr

/-- Context.AddTask (pkg/cache/context.go lines 426-440): only when the
application exists and GetTask fails for the taskID is a new task created
(marked allocated to the pod's node in recovery mode) and added to the
application; otherwise nothing changes. -/
def ctxAddTask (apps : List (String × App)) (req : AddTaskRequest) :
    List (String × App) :=
  match alookup apps req.applicationID with
  | some app =>
      match alookup app.taskMap req.taskID with
      | some _ => apps
      | none =>
          let t : Task := ⟨req.taskID, req.podUID,
            if req.recovery then some req.podNodeName else none⟩
          (req.applicationID, appAddTask app t) :: apps
  | none => apps

/-- A node as delivered by the orchestrator informer: name, the
Spec.Unschedulable flag, and the node resource vector
(common.GetNodeResource of its status, modelled from the spec as an
integer-valued vector per resource kind). -/
structure K8sNode where
  name : String
  unschedulable : Bool
  resources : List (String × Int)
  deriving DecidableEq, Repr

/-- Modelled from the spec: common.Equals (pkg/common, not under src/)
compares two resource vectors component-wise per resource kind, with the
ordering of resource keys irrelevant. -/
def resEquals (r1 r2 : List (String × Int)) : Bool :=
  (r1.map Prod.fst ++ r2.map Prod.fst).all
    (fun k => alookup r1 k == alookup r2 k)

/-- equals (pkg/cache/nodes.go lines 69-73): compare the two nodes'
resource vectors. -/
def nodeEquals (n1 n2 : K8sNode) : Bool :=
  resEquals n1.resources n2.resources

/-- Node states, from the specification's node state machine (the
SchedulerNode source is not under src/). -/
inductive NodeState
  | New | Recovering | Healthy | Draining | Unhealthy | Decommissioned
  deriving DecidableEq, Repr

/-- Observable side effects of the nodes sub-component: dispatched node
events and scheduler-core Update requests. -/
inductive NodeEffect
  | dispatchDrain (nodeID : String)
  | dispatchRestore (nodeID : String)
  | coreUpdateUpdated (n : K8sNode)
  deriving DecidableEq, Repr

/-- schedulerNodes.drainNode (pkg/cache/nodes.go lines 133-143): dispatch
DrainNode when the node is known and currently Healthy. -/
def drainNodeEffects (nm : List (String × NodeState)) (n : K8sNode) : List NodeEffect :=
  match alookup nm n.name with
  | some s => if s = NodeState.Healthy then [.dispatchDrain n.name] else []
  | none => []

/-- schedulerNodes.restoreNode (pkg/cache/nodes.go lines 145-155): dispatch
RestoreNode when the node is known and currently Draining. -/
def restoreNodeEffects (nm : List (String × NodeState)) (n : K8sNode) : List NodeEffect :=
  match alookup nm n.name with
  | some s => if s = NodeState.Draining then [.dispatchRestore n.name] else []
  | none => []

/-- The cordon/uncordon branch at the top of schedulerNodes.updateNode
(pkg/cache/nodes.go lines 161-166). -/
def cordonEffects (nm : List (String × NodeState)) (oldNode newNode : K8sNode) :
    List NodeEffect :=
  if !oldNode.unschedulable && newNode.unschedulable then drainNodeEffects nm newNode
  else if oldNode.unschedulable && !newNode.unschedulable then restoreNodeEffects nm newNode
  else []

/-- schedulerNodes.updateNode (pkg/cache/nodes.go lines 157-180): after the
cordon branch, when the resource vectors are equal the event is skipped;
otherwise an UpdatedNodes Update request for the new node goes to
scheduler-core. -/
def updateNodeEffects (nm : List (String × NodeState)) (oldNode newNode : K8sNode) :
    List NodeEffect :=
  cordonEffects nm oldNode newNode ++
    (if nodeEquals oldNode newNode then [] else [.coreUpdateUpdated newNode])

/-- Pod phases as the watch loop inspects them. -/
inductive PodPhase
  | PodPending | PodRunning | PodSucceeded | PodFailed | PodUnknown
  deriving DecidableEq, Repr

/-- A pod update delivered on the completion handler's watch channel. -/
structure WatchedPod where
  uid : String
  phase : PodPhase
  deriving DecidableEq, Repr

/-- The event the completion handler may dispatch. -/
inductive WatchEffect
  | dispatchComplete (appID : String)
  deriving DecidableEq, Repr

/-- The completion handler's watch loop (pkg/cache/application.go lines
365-378): iterate over the watch channel; at the first pod update with
phase PodSucceeded and the driver pod's UID, dispatch CompleteApplication
and return; when the channel closes first (the list is exhausted), return
silently with no dispatch. -/
def completionLoop (appID driverUID : String) : List WatchedPod → List WatchEffect
  | [] => []
  | p :: rest =>
      if p.phase = PodPhase.PodSucceeded ∧ p.uid = driverUID
      then [.dispatchComplete appID]
      else completionLoop appID driverUID rest

/-- common.SparkLabelRole. -/
def sparkLabelRole : String := "spark-role"

/-- common.SparkLabelRoleDriver. -/
def sparkLabelRoleDriver : String := "driver"

/-- Application.startSparkCompletionHandler (pkg/cache/application.go lines
346-382), with the number of launched watcher goroutines made explicit:
when app.ch.running is true the call returns without launching; otherwise
app.ch is replaced by a CompletionHandler literal that sets only completeFn,
leaving running at its zero value false, and CompletionHandler.start
launches the watcher goroutine when running is false. Returns the running
flag after the call and the number of watchers launched by it. -/
def startSparkCompletionHandler (chRunning : Bool) : Bool × Nat :=
  if chRunning then (chRunning, 0)
  else
    let newRunning := false
    (newRunning, if newRunning then 0 else 1)

/-- Application.startCompletionHandler (pkg/cache/application.go lines
337-344): only a pod carrying the Spark driver role label starts the Spark
completion handler. -/
def startCompletionHandler (chRunning : Bool) (pod : Pod) : Bool × Nat :=
  if pod.labels.any (fun kv => kv.1 == sparkLabelRole && kv.2 == sparkLabelRoleDriver)
  then startSparkCompletionHandler chRunning
  else (chRunning, 0)

end YuniKorn

namespace YuniKorn

/-- C2: the Application state machine admits exactly the transitions of the
spec's table: Can(verb) holds exactly when the state is in the verb's From
set; firing from a From state succeeds and lands on the table's To state;
for every other pair Can is false and firing is a no-op (state unchanged,
no effects) that reports an invalid-event error. -/
theorem app_fsm_matches_spec_table :
    ∀ (s : AppState) (ev : AppEventType) (rpcErr : Bool),
      (smCan s ev = true ↔ s ∈ specFrom ev) ∧
      (s ∈ specFrom ev →
        (smEvent rpcErr s ev).state = specTo ev ∧
        (appHandle rpcErr s ev).isOk = true) ∧
      (s ∉ specFrom ev →
        smCan s ev = false ∧
        smEvent rpcErr s ev = ⟨s, [], some .invalidEvent⟩) := by
  decide

/-- Witness for C2 at a concrete input: Submitted is in Reject's From set,
firing lands on Rejected and succeeds. -/
theorem app_fsm_matches_spec_table_witness :
    (smEvent false .Submitted .RejectApplication).state = AppState.Rejected ∧
    (appHandle false .Submitted .RejectApplication).isOk = true :=
  (app_fsm_matches_spec_table .Submitted .RejectApplication false).2.1 (by decide)

/-- C3: Application.handle returns success when the fsm reports the
same-state "no transition" sentinel (the state is then unchanged); for any
other fsm error the error itself is returned and the state is unchanged. -/
theorem app_handle_error_semantics :
    ∀ (rpcErr : Bool) (s : AppState) (ev : AppEventType),
      ((smEvent rpcErr s ev).err = some .noTransition →
        appHandle rpcErr s ev = .ok (s, appCallback rpcErr ev) ∧
        (smEvent rpcErr s ev).state = s) ∧
      (∀ e : FsmErr, (smEvent rpcErr s ev).err = some e →
        e.message ≠ "no transition" →
        appHandle rpcErr s ev = .error e ∧
        (smEvent rpcErr s ev).state = s) := by
  decide

/-- Witness for C3 at concrete inputs: Running + Run is a same-state
re-entry treated as success; Completed + Run is an invalid event whose error
is returned with the state unchanged. -/
theorem app_handle_error_semantics_witness :
    (appHandle false .Running .RunApplication = .ok (.Running, appCallback false .RunApplication) ∧
      (smEvent false .Running .RunApplication).state = .Running) ∧
    (appHandle false .Completed .RunApplication = .error .invalidEvent ∧
      (smEvent false .Completed .RunApplication).state = .Completed) :=
  ⟨(app_handle_error_semantics false .Running .RunApplication).1 (by decide),
   (app_handle_error_semantics false .Completed .RunApplication).2
     .invalidEvent (by decide) (by decide)⟩

/-- C6: an application in Submitted handling RejectApplication moves to
Rejected, its callback dispatches FailApplication and issues no
scheduler-core RPC; the subsequent FailApplication event moves Rejected to
Failed. -/
theorem reject_then_fail :
    ∀ rpcErr : Bool,
      appHandle rpcErr .Submitted .RejectApplication =
        .ok (.Rejected, [.dispatchApp .FailApplication]) ∧
      AppEffect.coreUpdateNewApp ∉ appCallback rpcErr .RejectApplication ∧
      appHandle rpcErr .Rejected .FailApplication = .ok (.Failed, []) := by
  decide

/-- Witness for C6 at a concrete input: the RPC-outcome parameter set to
success. -/
theorem reject_then_fail_witness :
    appHandle false .Submitted .RejectApplication =
      .ok (.Rejected, [.dispatchApp .FailApplication]) ∧
    appHandle false .Rejected .FailApplication = .ok (.Failed, []) :=
  ⟨(reject_then_fail false).1, (reject_then_fail false).2.2⟩

theorem aerase_of_forall_ne {α : Type} (k : String) (xs : List (String × α))
    (h : ∀ p ∈ xs, p.1 ≠ k) : aerase k xs = xs := by
  induction xs with
  | nil => rfl
  | cons hd tl ih =>
      have hne : hd.1 ≠ k := h hd (List.mem_cons_self hd tl)
      simp only [aerase, if_neg hne]
      rw [ih (fun p hp => h p (List.mem_cons_of_mem hd hp))]

theorem aerase_idem {α : Type} (k : String) (xs : List (String × α)) :
    aerase k (aerase k xs) = aerase k xs := by
  induction xs with
  | nil => rfl
  | cons hd tl ih =>
      by_cases hk : hd.1 = k
      · simp only [aerase, if_pos hk, ih]
      · simp only [aerase, if_neg hk, ih]

theorem aerase_cons_self {α : Type} (k : String) (v : α) (xs : List (String × α)) :
    aerase k ((k, v) :: xs) = aerase k xs := by
  simp [aerase]

/-- C1 counterexample: on a cache that knows node n1 but no pod p,
Context.AssumePod returns success (nil error) rather than a NotFound
error. -/
theorem assumePod_missing_pod_no_error :
    ctxAssumePod none ⟨[], ["n1"], []⟩ "p" "n1" =
      .ok (⟨[], ["n1"], []⟩ : SchedulerCache) := by
  rfl

/-- C1 amended: when the pod or the node is missing from the scheduler
cache, Context.AssumePod returns success (nil error) and performs no cache
mutation. -/
theorem assumePod_missing_no_mutation :
    ∀ (binder : BinderOutcome) (c : SchedulerCache) (name node : String),
      (cacheGetPod c name = none ∨ cacheHasNode c node = false) →
      ctxAssumePod binder c name node = .ok c := by
  intro binder c name node h
  rcases h with h | h
  · simp [ctxAssumePod, h]
  · cases hp : cacheGetPod c name <;> simp [ctxAssumePod, hp, h]

/-- Witness for the amended C1 at a concrete input. -/
theorem assumePod_missing_no_mutation_witness :
    ctxAssumePod none ⟨[("p", ⟨"p", "", []⟩)], [], []⟩ "p" "n1" =
      .ok (⟨[("p", ⟨"p", "", []⟩)], [], []⟩ : SchedulerCache) :=
  assumePod_missing_no_mutation none ⟨[("p", ⟨"p", "", []⟩)], [], []⟩ "p" "n1"
    (Or.inr rfl)

/-- C4: when AssumePod(name, node) succeeds on a cache whose pod record for
name is not currently assumed, the original pod map is untouched (the node
name is stamped only on the copy) and ForgetPod(name) returns the cache to
its prior state. -/
theorem assume_forget_symmetry :
    ∀ (binder : BinderOutcome) (c c1 : SchedulerCache) (name node : String) (pod : Pod),
      cacheGetPod c name = some pod →
      (∀ q ∈ c.assumedPods, q.1 ≠ pod.uid) →
      ctxAssumePod binder c name node = .ok c1 →
      c1.pods = c.pods ∧ ctxForgetPod c1 name = .ok c := by
  intro binder c c1 name node pod hp hfresh hassume
  have hcache : ∀ d : SchedulerCache, d.pods = c.pods → d.nodes = c.nodes →
      d.assumedPods = c.assumedPods → d = c := by
    intro d h1 h2 h3
    cases d; cases c
    simp_all
  have hforget_c : ctxForgetPod c name = .ok c := by
    simp only [ctxForgetPod, hp]
    rw [show cacheForgetPod c pod = c from
      hcache _ rfl rfl (aerase_of_forall_ne pod.uid c.assumedPods hfresh)]
  by_cases hn : cacheHasNode c node = true
  · have hstep : ∀ b : Bool, c1 = cacheAssumePod c { pod with nodeName := node } b →
        c1.pods = c.pods ∧ ctxForgetPod c1 name = .ok c := by
      intro b hc1
      subst hc1
      refine ⟨rfl, ?_⟩
      have hget1 : cacheGetPod (cacheAssumePod c { pod with nodeName := node } b) name =
          some pod := hp
      simp only [ctxForgetPod, hget1]
      have herase : aerase pod.uid
          (cacheAssumePod c { pod with nodeName := node } b).assumedPods =
          c.assumedPods := by
        simp only [cacheAssumePod]
        rw [show ({ pod with nodeName := node } : Pod).uid = pod.uid from rfl]
        rw [aerase_cons_self]
        exact aerase_of_forall_ne pod.uid c.assumedPods hfresh
      rw [show cacheForgetPod (cacheAssumePod c { pod with nodeName := node } b) pod = c from
        hcache _ rfl rfl herase]
    cases binder with
    | none =>
        simp only [ctxAssumePod, hp, hn, if_true] at hassume
        exact hstep true (by injection hassume with h; exact h.symm)
    | some r =>
        cases r with
        | error e => simp [ctxAssumePod, hp, hn] at hassume
        | ok b =>
            simp only [ctxAssumePod, hp, hn, if_true] at hassume
            exact hstep b (by injection hassume with h; exact h.symm)
  · have hn2 : cacheHasNode c node = false := by
      cases hx : cacheHasNode c node
      · rfl
      · exact absurd hx hn
    have : ctxAssumePod binder c name node = .ok c := by
      simp [ctxAssumePod, hp, hn2]
    rw [this] at hassume
    have hc1 : c1 = c := by injection hassume with h; exact h.symm
    subst hc1
    exact ⟨rfl, hforget_c⟩

/-- Witness for C4 at a concrete input: a cache holding pod p and node n1,
no binder; assume then forget restores the cache. -/
theorem assume_forget_symmetry_witness :
    (⟨[("p", ⟨"p", "", []⟩)], ["n1"],
      [(("p" : String), ((⟨"p", "n1", []⟩ : Pod), true))]⟩ : SchedulerCache).pods =
      (⟨[("p", ⟨"p", "", []⟩)], ["n1"], []⟩ : SchedulerCache).pods ∧
    ctxForgetPod ⟨[("p", ⟨"p", "", []⟩)], ["n1"],
      [(("p" : String), ((⟨"p", "n1", []⟩ : Pod), true))]⟩ "p" =
      .ok (⟨[("p", ⟨"p", "", []⟩)], ["n1"], []⟩ : SchedulerCache) :=
  assume_forget_symmetry none ⟨[("p", ⟨"p", "", []⟩)], ["n1"], []⟩
    ⟨[("p", ⟨"p", "", []⟩)], ["n1"], [(("p" : String), ((⟨"p", "n1", []⟩ : Pod), true))]⟩
    "p" "n1" ⟨"p", "", []⟩ rfl (by simp) rfl

/-- C5: ForgetPod of a pod missing from the scheduler cache returns success
and leaves the cache unchanged, and ForgetPod is idempotent: a second call
for the same name has no further effect. -/
theorem forgetPod_missing_ok_and_idempotent :
    ∀ (c : SchedulerCache) (name : String),
      (cacheGetPod c name = none → ctxForgetPod c name = .ok c) ∧
      (∀ c1, ctxForgetPod c name = .ok c1 → ctxForgetPod c1 name = .ok c1) := by
  intro c name
  constructor
  · intro h
    simp [ctxForgetPod, h]
  · intro c1 h
    cases hp : cacheGetPod c name with
    | none =>
        simp only [ctxForgetPod, hp] at h
        have : c1 = c := by injection h with h1; exact h1.symm
        subst this
        simp [ctxForgetPod, hp]
    | some pod =>
        simp only [ctxForgetPod, hp] at h
        have hc1 : c1 = cacheForgetPod c pod := by injection h with h1; exact h1.symm
        subst hc1
        have hget1 : cacheGetPod (cacheForgetPod c pod) name = some pod := hp
        simp only [ctxForgetPod, hget1]
        simp [cacheForgetPod, aerase_idem]

/-- Witness for C5 at a concrete input: a cache without pod q. -/
theorem forgetPod_missing_ok_and_idempotent_witness :
    ctxForgetPod ⟨[], ["n1"], []⟩ "q" = .ok (⟨[], ["n1"], []⟩ : SchedulerCache) :=
  (forgetPod_missing_ok_and_idempotent ⟨[], ["n1"], []⟩ "q").1 rfl

/-- C10: Context.AddApplication always stores a fresh application in state
New with an empty task map under the requested ID, replacing whatever was
registered there; Context.AddTask and Application.AddTask leave everything
unchanged when the taskID already exists. -/
theorem addApplication_replaces_addTask_skips :
    ∀ (apps : List (String × App)) (req : AddApplicationRequest),
      (alookup (ctxAddApplication apps req).1 req.applicationID =
        some (newApplication req.applicationID req.queueName req.user req.tags)) ∧
      ((newApplication req.applicationID req.queueName req.user req.tags).state =
        AppState.New) ∧
      ((newApplication req.applicationID req.queueName req.user req.tags).taskMap = []) ∧
      (∀ (tre : AddTaskRequest) (app : App),
        alookup apps tre.applicationID = some app →
        (alookup app.taskMap tre.taskID).isSome = true →
        ctxAddTask apps tre = apps) ∧
      (∀ (app : App) (t : Task),
        (alookup app.taskMap t.taskID).isSome = true → appAddTask app t = app) := by
  intro apps req
  refine ⟨?_, rfl, rfl, ?_, ?_⟩
  · simp [ctxAddApplication, newApplication, alookup]
  · intro tre app happ htask
    cases ht : alookup app.taskMap tre.taskID with
    | none => rw [ht] at htask; simp at htask
    | some t0 => simp [ctxAddTask, happ, ht]
  · intro app t htask
    cases ht : alookup app.taskMap t.taskID with
    | none => rw [ht] at htask; simp at htask
    | some t0 => simp [appAddTask, ht]

/-- Witness for C10 at concrete inputs: an existing registration for app1
is replaced by a fresh New application, and adding a duplicate task is a
no-op. -/
theorem addApplication_replaces_addTask_skips_witness :
    (alookup (ctxAddApplication
        [("app1", (⟨"app1", "q0", "u0", [], .Running,
          [("t1", ⟨"t1", "t1", none⟩)], false⟩ : App))]
        ⟨"app1", "root.default", "alice", [], false⟩).1 "app1" =
      some (newApplication "app1" "root.default" "alice" [])) ∧
    ctxAddTask [("app1", (⟨"app1", "q0", "u0", [], .Running,
        [("t1", ⟨"t1", "t1", none⟩)], false⟩ : App))]
      ⟨"app1", "t1", "t1", "n1", false⟩ =
      [("app1", (⟨"app1", "q0", "u0", [], .Running,
        [("t1", ⟨"t1", "t1", none⟩)], false⟩ : App))] := by
  have h := addApplication_replaces_addTask_skips
    [("app1", (⟨"app1", "q0", "u0", [], .Running,
      [("t1", ⟨"t1", "t1", none⟩)], false⟩ : App))]
    ⟨"app1", "root.default", "alice", [], false⟩
  exact ⟨h.1, h.2.2.2.1 ⟨"app1", "t1", "t1", "n1", false⟩
    ⟨"app1", "q0", "u0", [], .Running, [("t1", ⟨"t1", "t1", none⟩)], false⟩
    rfl rfl⟩

theorem alookup_eq_none {α : Type} (xs : List (String × α)) (k : String)
    (h : ∀ p ∈ xs, p.1 ≠ k) : alookup xs k = none := by
  induction xs with
  | nil => rfl
  | cons hd tl ih =>
      have hne : hd.1 ≠ k := h hd (List.mem_cons_self hd tl)
      simp only [alookup, if_neg hne]
      exact ih (fun p hp => h p (List.mem_cons_of_mem hd hp))

theorem resEquals_iff (r1 r2 : List (String × Int)) :
    resEquals r1 r2 = true ↔ ∀ k, alookup r1 k = alookup r2 k := by
  constructor
  · intro h k
    by_cases h1 : ∃ p ∈ r1, p.1 = k
    · obtain ⟨p, hp, hpk⟩ := h1
      have hk : k ∈ r1.map Prod.fst ++ r2.map Prod.fst :=
        List.mem_append_left _ (List.mem_map.mpr ⟨p, hp, hpk⟩)
      have hbeq := List.all_eq_true.mp h k hk
      exact eq_of_beq hbeq
    · by_cases h2 : ∃ p ∈ r2, p.1 = k
      · obtain ⟨p, hp, hpk⟩ := h2
        have hk : k ∈ r1.map Prod.fst ++ r2.map Prod.fst :=
          List.mem_append_right _ (List.mem_map.mpr ⟨p, hp, hpk⟩)
        have hbeq := List.all_eq_true.mp h k hk
        exact eq_of_beq hbeq
      · have e1 : alookup r1 k = none :=
          alookup_eq_none r1 k (fun p hp hk => h1 ⟨p, hp, hk⟩)
        have e2 : alookup r2 k = none :=
          alookup_eq_none r2 k (fun p hp hk => h2 ⟨p, hp, hk⟩)
        rw [e1, e2]
  · intro h
    apply List.all_eq_true.mpr
    intro k _
    exact beq_iff_eq.mpr (h k)

theorem mem_drain_effects (nm : List (String × NodeState)) (n : K8sNode)
    (x : NodeEffect) (h : x ∈ drainNodeEffects nm n) :
    x = NodeEffect.dispatchDrain n.name := by
  cases hl : alookup nm n.name with
  | none => simp only [drainNodeEffects, hl] at h; simp at h
  | some s =>
      simp only [drainNodeEffects, hl] at h
      by_cases hs : s = NodeState.Healthy
      · rw [if_pos hs] at h; simpa using h
      · rw [if_neg hs] at h; simp at h

theorem mem_restore_effects (nm : List (String × NodeState)) (n : K8sNode)
    (x : NodeEffect) (h : x ∈ restoreNodeEffects nm n) :
    x = NodeEffect.dispatchRestore n.name := by
  cases hl : alookup nm n.name with
  | none => simp only [restoreNodeEffects, hl] at h; simp at h
  | some s =>
      simp only [restoreNodeEffects, hl] at h
      by_cases hs : s = NodeState.Draining
      · rw [if_pos hs] at h; simpa using h
      · rw [if_neg hs] at h; simp at h

theorem cordon_no_core_update (nm : List (String × NodeState))
    (o n m : K8sNode) : NodeEffect.coreUpdateUpdated m ∉ cordonEffects nm o n := by
  intro hmem
  unfold cordonEffects at hmem
  split at hmem
  · exact NodeEffect.noConfusion (mem_drain_effects nm n _ hmem)
  · split at hmem
    · exact NodeEffect.noConfusion (mem_restore_effects nm n _ hmem)
    · simp at hmem

/-- C7: updateNode sends the UpdatedNodes Update request exactly when the
two nodes' resource vectors differ in some component, where the comparison
is component-wise per resource kind and independent of key ordering. -/
theorem updateNode_resource_gate :
    ∀ (nm : List (String × NodeState)) (oldNode newNode : K8sNode),
      (nodeEquals oldNode newNode = true ↔
        ∀ k, alookup oldNode.resources k = alookup newNode.resources k) ∧
      ((∀ k, alookup oldNode.resources k = alookup newNode.resources k) →
        ∀ m, NodeEffect.coreUpdateUpdated m ∉ updateNodeEffects nm oldNode newNode) ∧
      (¬(∀ k, alookup oldNode.resources k = alookup newNode.resources k) →
        NodeEffect.coreUpdateUpdated newNode ∈ updateNodeEffects nm oldNode newNode) := by
  intro nm oldNode newNode
  refine ⟨resEquals_iff _ _, ?_, ?_⟩
  · intro hall m hmem
    have heq : nodeEquals oldNode newNode = true := (resEquals_iff _ _).mpr hall
    unfold updateNodeEffects at hmem
    rw [heq, if_pos rfl, List.append_nil] at hmem
    exact cordon_no_core_update nm oldNode newNode m hmem
  · intro hne
    have heq : nodeEquals oldNode newNode = false := by
      cases hx : nodeEquals oldNode newNode
      · rfl
      · exact absurd ((resEquals_iff _ _).mp hx) hne
    unfold updateNodeEffects
    rw [heq]
    simp

/-- Witness for C7 at concrete inputs: equal vectors given in different key
order send no update; a changed cpu component sends the update. -/
theorem updateNode_resource_gate_witness :
    (∀ m, NodeEffect.coreUpdateUpdated m ∉
      updateNodeEffects [] ⟨"n1", false, [("cpu", 4000), ("memory", 8192)]⟩
        ⟨"n1", false, [("memory", 8192), ("cpu", 4000)]⟩) ∧
    NodeEffect.coreUpdateUpdated ⟨"n1", false, [("cpu", 2000), ("memory", 8192)]⟩ ∈
      updateNodeEffects [] ⟨"n1", false, [("cpu", 4000), ("memory", 8192)]⟩
        ⟨"n1", false, [("cpu", 2000), ("memory", 8192)]⟩ := by
  constructor
  · exact (updateNode_resource_gate [] ⟨"n1", false, [("cpu", 4000), ("memory", 8192)]⟩
      ⟨"n1", false, [("memory", 8192), ("cpu", 4000)]⟩).2.1
      ((updateNode_resource_gate [] ⟨"n1", false, [("cpu", 4000), ("memory", 8192)]⟩
        ⟨"n1", false, [("memory", 8192), ("cpu", 4000)]⟩).1.mp (by decide))
  · exact (updateNode_resource_gate [] ⟨"n1", false, [("cpu", 4000), ("memory", 8192)]⟩
      ⟨"n1", false, [("cpu", 2000), ("memory", 8192)]⟩).2.2
      (fun hall => absurd ((updateNode_resource_gate []
        ⟨"n1", false, [("cpu", 4000), ("memory", 8192)]⟩
        ⟨"n1", false, [("cpu", 2000), ("memory", 8192)]⟩).1.mpr hall) (by decide))

/-- C9: the watch loop dispatches CompleteApplication exactly when the
channel delivers a pod update with phase PodSucceeded and the driver pod's
UID; when the channel closes without such an update, the loop returns
silently with no dispatch. -/
theorem completion_loop_dispatch_iff :
    ∀ (appID driverUID : String) (evs : List WatchedPod),
      (WatchEffect.dispatchComplete appID ∈ completionLoop appID driverUID evs ↔
        ∃ p ∈ evs, p.phase = PodPhase.PodSucceeded ∧ p.uid = driverUID) ∧
      ((∀ p ∈ evs, ¬(p.phase = PodPhase.PodSucceeded ∧ p.uid = driverUID)) →
        completionLoop appID driverUID evs = []) := by
  intro appID driverUID evs
  induction evs with
  | nil => exact ⟨by simp [completionLoop], fun _ => rfl⟩
  | cons hd tl ih =>
      constructor
      · by_cases hh : hd.phase = PodPhase.PodSucceeded ∧ hd.uid = driverUID
        · simp only [completionLoop, if_pos hh]
          constructor
          · intro _; exact ⟨hd, List.mem_cons_self hd tl, hh⟩
          · intro _; simp
        · simp only [completionLoop, if_neg hh]
          constructor
          · intro hmem
            obtain ⟨p, hp, hcond⟩ := ih.1.mp hmem
            exact ⟨p, List.mem_cons_of_mem hd hp, hcond⟩
          · intro hex
            obtain ⟨p, hp, hcond⟩ := hex
            rcases List.mem_cons.mp hp with heq | hmem2
            · subst heq; exact absurd hcond hh
            · exact ih.1.mpr ⟨p, hmem2, hcond⟩
      · intro hall
        have hh : ¬(hd.phase = PodPhase.PodSucceeded ∧ hd.uid = driverUID) :=
          hall hd (List.mem_cons_self hd tl)
        simp only [completionLoop, if_neg hh]
        exact ih.2 (fun p hp => hall p (List.mem_cons_of_mem hd hp))

/-- Witness for C9 at a concrete input: the channel closes after a
non-succeeded update for the driver pod; the handler exits silently. -/
theorem completion_loop_dispatch_iff_witness :
    completionLoop "app1" "driver-uid" [⟨"driver-uid", PodPhase.PodRunning⟩] = [] :=
  (completion_loop_dispatch_iff "app1" "driver-uid"
    [⟨"driver-uid", PodPhase.PodRunning⟩]).2 (by decide)

/-- C8 failing input: startSparkCompletionHandler never sets the running
flag to true (the CompletionHandler literal sets only completeFn), so a
second call for the same Spark driver pod launches a second watcher
goroutine instead of being gated. -/
theorem startCompletionHandler_not_gated :
    startCompletionHandler false ⟨"d", "", [(sparkLabelRole, sparkLabelRoleDriver)]⟩ =
      (false, 1) ∧
    startCompletionHandler
      (startCompletionHandler false
        ⟨"d", "", [(sparkLabelRole, sparkLabelRoleDriver)]⟩).1
      ⟨"d", "", [(sparkLabelRole, sparkLabelRoleDriver)]⟩ = (false, 1) := by
  exact ⟨rfl, rfl⟩

end YuniKorn
